import Mathlib

/-!
Shallow embedding of `src/collide.c` (vktec/v2d): 2D collision predicates and
raycast functions. Shape coordinates are modelled as exact rationals; the
raycast-vs-rect slab computation is modelled over an explicit IEEE-style
extended type with signed infinities and NaN, since its divisions by a zero
direction component produce those values in the C code; the raycast-vs-circle
computation, which uses `sqrt`, is modelled over the reals.
-/

namespace V2D

/-- Modelled from the spec: the 2D vector value type of the vector-arithmetic
collaborator (`v2d/vector.h`, which is not under `src/`); per the spec, any
pair of coordinates is a valid vector. -/
structure Vec where
  x : ℚ
  y : ℚ
deriving DecidableEq

/-- Modelled from the spec: componentwise vector addition from the
vector-arithmetic collaborator. -/
def vadd (a b : Vec) : Vec := ⟨a.x + b.x, a.y + b.y⟩

/-- Modelled from the spec: componentwise vector subtraction from the
vector-arithmetic collaborator. -/
def vsub (a b : Vec) : Vec := ⟨a.x - b.x, a.y - b.y⟩

/-- Modelled from the spec: dot product from the vector-arithmetic
collaborator. -/
def dot (a b : Vec) : ℚ := a.x * b.x + a.y * b.y

/-- Modelled from the spec: squared magnitude from the vector-arithmetic
collaborator. -/
def mag2 (v : Vec) : ℚ := v.x * v.x + v.y * v.y

/-- Modelled from the spec: the zero vector; `dir == 0` in the C code is the
collaborator's equality-to-zero test (both components zero). -/
def vzero : Vec := ⟨0, 0⟩

/-- `v2d_circle_t`: center position and radius. -/
structure Circle where
  pos : Vec
  rad : ℚ
deriving DecidableEq

/-- `v2d_rect_t`: origin position and extent (dimensions, possibly negative). -/
structure Rect where
  pos : Vec
  dim : Vec
deriving DecidableEq

/-- `v2d_ray_t`: origin position and direction vector. -/
structure Ray where
  pos : Vec
  dir : Vec
deriving DecidableEq

/-- `_clamp` from collide.c: clamp a scalar between two others, robust to the
two bounds arriving in either order. -/
def clamp (a lo hi : ℚ) : ℚ :=
  if lo < hi then max lo (min hi a) else max hi (min lo a)

/-- `_clampv` from collide.c: clamp a vector componentwise between two others. -/
def clampv (a lo hi : Vec) : Vec :=
  ⟨clamp a.x lo.x hi.x, clamp a.y lo.y hi.y⟩

/-- One iteration of the loop in `_rect_fix`: if the dimension `d` is
negative, negate it and shift the position by the (now positive) dimension. -/
def fix_axis (p d : ℚ) : ℚ × ℚ :=
  if d < 0 then (p + d, -d) else (p, d)

/-- `_rect_fix` from collide.c: flip a rect's dimensions if they are negative,
axis by axis. -/
def rect_fix (r : Rect) : Rect :=
  ⟨⟨(fix_axis r.pos.x r.dim.x).1, (fix_axis r.pos.y r.dim.y).1⟩,
   ⟨(fix_axis r.pos.x r.dim.x).2, (fix_axis r.pos.y r.dim.y).2⟩⟩

/-- `v2d_collide_point_circle` from collide.c. -/
def v2d_collide_point_circle (p : Vec) (c : Circle) : Bool :=
  decide (mag2 (vsub c.pos p) < c.rad * c.rad)

/-- `v2d_collide_point_rect` from collide.c: normalize the rect, then early
return `false` on each strict out-of-bounds comparison. -/
def v2d_collide_point_rect (p : Vec) (b : Rect) : Bool :=
  if p.x < (rect_fix b).pos.x then false
  else if p.x > (rect_fix b).pos.x + (rect_fix b).dim.x then false
  else if p.y < (rect_fix b).pos.y then false
  else if p.y > (rect_fix b).pos.y + (rect_fix b).dim.y then false
  else true

/-- `v2d_collide_circle_circle` from collide.c. -/
def v2d_collide_circle_circle (a b : Circle) : Bool :=
  decide (mag2 (vsub a.pos b.pos) < (a.rad + b.rad) * (a.rad + b.rad))

/-- `v2d_collide_rect_rect` from collide.c: normalize both rects, then early
return `false` on each strict separating-axis comparison. -/
def v2d_collide_rect_rect (a b : Rect) : Bool :=
  if (rect_fix a).pos.x + (rect_fix a).dim.x < (rect_fix b).pos.x then false
  else if (rect_fix b).pos.x + (rect_fix b).dim.x < (rect_fix a).pos.x then false
  else if (rect_fix a).pos.y + (rect_fix a).dim.y < (rect_fix b).pos.y then false
  else if (rect_fix b).pos.y + (rect_fix b).dim.y < (rect_fix a).pos.y then false
  else true

/-- `v2d_collide_circle_rect` from collide.c: the rect is used directly as a
min/max corner pair without normalization. -/
def v2d_collide_circle_rect (a : Circle) (b : Rect) : Bool :=
  decide (mag2 (vsub (clampv a.pos b.pos (vadd b.pos b.dim)) a.pos) < a.rad * a.rad)

/-- IEEE-double value model for the slab computation of `v2d_raycast_rect`:
a finite value (exact rational, abstracting rounding), a signed infinity, or
NaN.  Negative zero is identified with zero. -/
inductive F where
  | nan : F
  | ninf : F
  | pinf : F
  | fin : ℚ → F
deriving DecidableEq

/-- IEEE division `1/q` for a finite `q`: `1/0` is `+inf` (the C operand
`0.0` is a positive zero). -/
def finv (q : ℚ) : F :=
  if q = 0 then F.pinf else F.fin (1 / q)

/-- IEEE multiplication on the value model: NaN is absorbing, and a zero
times an infinity is NaN. -/
def fmul : F → F → F
  | F.nan, _ => F.nan
  | _, F.nan => F.nan
  | F.fin a, F.fin b => F.fin (a * b)
  | F.fin a, F.pinf => if 0 < a then F.pinf else if a < 0 then F.ninf else F.nan
  | F.fin a, F.ninf => if 0 < a then F.ninf else if a < 0 then F.pinf else F.nan
  | F.pinf, F.fin b => if 0 < b then F.pinf else if b < 0 then F.ninf else F.nan
  | F.ninf, F.fin b => if 0 < b then F.ninf else if b < 0 then F.pinf else F.nan
  | F.pinf, F.pinf => F.pinf
  | F.pinf, F.ninf => F.ninf
  | F.ninf, F.pinf => F.ninf
  | F.ninf, F.ninf => F.pinf

/-- IEEE `<`: any comparison involving NaN is false. -/
def flt : F → F → Bool
  | F.nan, _ => false
  | _, F.nan => false
  | F.ninf, F.ninf => false
  | F.ninf, _ => true
  | _, F.ninf => false
  | F.pinf, _ => false
  | F.fin _, F.pinf => true
  | F.fin a, F.fin b => decide (a < b)

/-- IEEE `<=`: any comparison involving NaN is false. -/
def fle : F → F → Bool
  | F.nan, _ => false
  | _, F.nan => false
  | F.ninf, _ => true
  | _, F.ninf => false
  | _, F.pinf => true
  | F.pinf, _ => false
  | F.fin a, F.fin b => decide (a ≤ b)

/-- C99 `fmin`: returns the other operand when one is NaN. -/
def fmin : F → F → F
  | F.nan, b => b
  | a, F.nan => a
  | F.ninf, _ => F.ninf
  | _, F.ninf => F.ninf
  | F.pinf, b => b
  | a, F.pinf => a
  | F.fin a, F.fin b => F.fin (min a b)

/-- C99 `fmax`: returns the other operand when one is NaN. -/
def fmax : F → F → F
  | F.nan, b => b
  | a, F.nan => a
  | F.pinf, _ => F.pinf
  | _, F.pinf => F.pinf
  | F.ninf, b => b
  | a, F.ninf => a
  | F.fin a, F.fin b => F.fin (max a b)

/-- `hx1` in `v2d_raycast_rect`: `(v2dvx(bmin) - v2dvx(r.pos)) * xcoef` with
`xcoef = 1/v2dvx(r.dir)`, on the normalized rect. -/
def rect_hx1 (r : Ray) (b : Rect) : F :=
  fmul (F.fin ((rect_fix b).pos.x - r.pos.x)) (finv r.dir.x)

/-- `hx2` in `v2d_raycast_rect`: `(v2dvx(bmax) - v2dvx(r.pos)) * xcoef`. -/
def rect_hx2 (r : Ray) (b : Rect) : F :=
  fmul (F.fin ((rect_fix b).pos.x + (rect_fix b).dim.x - r.pos.x)) (finv r.dir.x)

/-- `hy1` in `v2d_raycast_rect`: `(v2dvy(bmin) - v2dvy(r.pos)) * ycoef` with
`ycoef = 1/v2dvy(r.dir)`. -/
def rect_hy1 (r : Ray) (b : Rect) : F :=
  fmul (F.fin ((rect_fix b).pos.y - r.pos.y)) (finv r.dir.y)

/-- `hy2` in `v2d_raycast_rect`: `(v2dvy(bmax) - v2dvy(r.pos)) * ycoef`. -/
def rect_hy2 (r : Ray) (b : Rect) : F :=
  fmul (F.fin ((rect_fix b).pos.y + (rect_fix b).dim.y - r.pos.y)) (finv r.dir.y)

/-- `hmax` after the x-axis chop in `v2d_raycast_rect`. -/
def rect_hmax_x (r : Ray) (b : Rect) : F := fmax (rect_hx1 r b) (rect_hx2 r b)

/-- `hmin` after the x-axis chop in `v2d_raycast_rect`. -/
def rect_hmin_x (r : Ray) (b : Rect) : F := fmin (rect_hx1 r b) (rect_hx2 r b)

/-- `hmax` after the y-axis chop in `v2d_raycast_rect`. -/
def rect_hmax_xy (r : Ray) (b : Rect) : F :=
  fmin (rect_hmax_x r b) (fmax (rect_hy1 r b) (rect_hy2 r b))

/-- `hmin` after the y-axis chop in `v2d_raycast_rect`. -/
def rect_hmin_xy (r : Ray) (b : Rect) : F :=
  fmax (rect_hmin_x r b) (fmin (rect_hy1 r b) (rect_hy2 r b))

/-- `h = hmin < 0 ? hmax : hmin` in `v2d_raycast_rect` (a NaN `hmin` compares
false and is kept). -/
def rect_h (r : Ray) (b : Rect) : F :=
  if flt (rect_hmin_xy r b) (F.fin 0) then rect_hmax_xy r b else rect_hmin_xy r b

/-- `v2d_raycast_rect` from collide.c: shortcut returns, then the slab method,
with `INFINITY` modelled as `F.pinf`. -/
def v2d_raycast_rect (r : Ray) (b : Rect) : F :=
  if v2d_collide_point_rect r.pos b then F.fin 0
  else if r.dir = vzero then F.pinf
  else if v2d_collide_point_rect (vadd r.pos r.dir) b then F.fin 0
  else if flt (rect_hmax_x r b) (rect_hmin_x r b) then F.pinf
  else if flt (rect_hmax_xy r b) (rect_hmin_xy r b) then F.pinf
  else if fle (F.fin 0) (rect_h r b) && fle (rect_h r b) (F.fin 1) then rect_h r b
  else F.pinf

/-- Result of `v2d_raycast_circle`: the `INFINITY` no-hit sentinel or a real
lambda value. -/
inductive CRes where
  | inf : CRes
  | val : ℝ → CRes

/-- `rmag` in `v2d_raycast_circle`: the magnitude of the direction vector,
`sqrt` of the squared magnitude. -/
noncomputable def circle_rmag (r : Ray) : ℝ :=
  Real.sqrt ((mag2 r.dir : ℚ) : ℝ)

/-- `proj` in `v2d_raycast_circle` before clamping: the projection of the
translated circle center onto the ray direction, as an actual distance. -/
noncomputable def circle_proj (r : Ray) (c : Circle) : ℝ :=
  ((dot (vsub c.pos r.pos) r.dir : ℚ) : ℝ) * (1 / circle_rmag r)

/-- `proj` in `v2d_raycast_circle` after the clamp to `[0, rmag]`. -/
noncomputable def circle_proj_clamped (r : Ray) (c : Circle) : ℝ :=
  if circle_proj r c < 0 then 0
  else if circle_proj r c > circle_rmag r then circle_rmag r
  else circle_proj r c

/-- `distance` in `v2d_raycast_circle`: squared distance from the translated
center to the clamped projected point `r.dir*proj*rimag`. -/
noncomputable def circle_dist2 (r : Ray) (c : Circle) : ℝ :=
  let rimag : ℝ := 1 / circle_rmag r
  let px : ℝ := (((vsub c.pos r.pos).x : ℚ) : ℝ) -
    ((r.dir.x : ℚ) : ℝ) * circle_proj_clamped r c * rimag
  let py : ℝ := (((vsub c.pos r.pos).y : ℚ) : ℝ) -
    ((r.dir.y : ℚ) : ℝ) * circle_proj_clamped r c * rimag
  px * px + py * py

/-- `h` in `v2d_raycast_circle`: back up from the projected point by the
Pythagorean offset and convert to a lambda fraction. -/
noncomputable def circle_h (r : Ray) (c : Circle) : ℝ :=
  (circle_proj_clamped r c -
    Real.sqrt (((c.rad : ℚ) : ℝ) * ((c.rad : ℚ) : ℝ) - circle_dist2 r c)) *
    (1 / circle_rmag r)

/-- `v2d_raycast_circle` from collide.c: shortcut returns, then the
projection computation, with `INFINITY` modelled as `CRes.inf`. -/
noncomputable def v2d_raycast_circle (r : Ray) (c : Circle) : CRes :=
  if v2d_collide_point_circle r.pos c then CRes.val 0
  else if r.dir = vzero then CRes.inf
  else if v2d_collide_point_circle (vadd r.pos r.dir) c then CRes.val 0
  else if circle_dist2 r c ≥ ((c.rad : ℚ) : ℝ) * ((c.rad : ℚ) : ℝ) then CRes.inf
  else if 0 ≤ circle_h r c ∧ circle_h r c ≤ 1 then CRes.val (circle_h r c)
  else CRes.inf

/-! ## Helper lemmas -/

lemma fle_bounds (x : F) (h0 : fle (F.fin 0) x = true) (h1 : fle x (F.fin 1) = true) :
    ∃ q, x = F.fin q ∧ 0 ≤ q ∧ q ≤ 1 := by
  cases x with
  | nan => simp [fle] at h0
  | ninf => simp [fle] at h0
  | pinf => simp [fle] at h1
  | fin q =>
    simp only [fle, decide_eq_true_eq] at h0 h1
    exact ⟨q, rfl, h0, h1⟩

lemma raycast_rect_cases (r : Ray) (b : Rect) :
    v2d_raycast_rect r b = F.pinf ∨
      ∃ q, v2d_raycast_rect r b = F.fin q ∧ 0 ≤ q ∧ q ≤ 1 := by
  unfold v2d_raycast_rect
  split_ifs with h1 h2 h3 h4 h5 h6
  · exact Or.inr ⟨0, rfl, le_refl 0, by norm_num⟩
  · exact Or.inl rfl
  · exact Or.inr ⟨0, rfl, le_refl 0, by norm_num⟩
  · exact Or.inl rfl
  · exact Or.inl rfl
  · rcases Bool.and_eq_true_iff.mp h6 with ⟨ha, hb⟩
    rcases fle_bounds _ ha hb with ⟨q, hq, hq0, hq1⟩
    exact Or.inr ⟨q, hq, hq0, hq1⟩
  · exact Or.inl rfl

lemma raycast_rect_candidate_rejected (r : Ray) (b : Rect)
    (h : (fle (F.fin 0) (rect_h r b) && fle (rect_h r b) (F.fin 1)) = false) :
    v2d_raycast_rect r b = F.fin 0 ∨ v2d_raycast_rect r b = F.pinf := by
  unfold v2d_raycast_rect
  split_ifs with h1 h2 h3 h4 h5 h6
  · exact Or.inl rfl
  · exact Or.inr rfl
  · exact Or.inl rfl
  · exact Or.inr rfl
  · exact Or.inr rfl
  · rw [h] at h6; exact absurd h6 (by simp)
  · exact Or.inr rfl

lemma raycast_circle_cases (r : Ray) (c : Circle) :
    v2d_raycast_circle r c = CRes.inf ∨
      ∃ l, v2d_raycast_circle r c = CRes.val l ∧ 0 ≤ l ∧ l ≤ 1 := by
  unfold v2d_raycast_circle
  split_ifs with h1 h2 h3 h4 h5
  · exact Or.inr ⟨0, rfl, le_refl 0, by norm_num⟩
  · exact Or.inl rfl
  · exact Or.inr ⟨0, rfl, le_refl 0, by norm_num⟩
  · exact Or.inl rfl
  · exact Or.inr ⟨circle_h r c, rfl, h5.1, h5.2⟩
  · exact Or.inl rfl

lemma raycast_circle_candidate_rejected (r : Ray) (c : Circle)
    (h : ¬(0 ≤ circle_h r c ∧ circle_h r c ≤ 1)) :
    v2d_raycast_circle r c = CRes.val 0 ∨ v2d_raycast_circle r c = CRes.inf := by
  unfold v2d_raycast_circle
  split_ifs with h1 h2 h3 h4
  · exact Or.inl rfl
  · exact Or.inr rfl
  · exact Or.inl rfl
  · exact Or.inr rfl
  · exact Or.inr rfl

/-! ## Claim theorems -/

/-- Claim C1: for every ray and every circle, and for every ray and every
rect, `v2d_raycast_circle` / `v2d_raycast_rect` return either the positive
infinity no-hit sentinel or a finite lambda in `[0, 1]`; moreover a candidate
lambda outside `[0, 1]` is reported as no hit (or caught by an earlier
shortcut return of `0`), never clamped into range or returned verbatim. -/
theorem raycast_lambda_in_unit_interval_or_no_hit :
    (∀ (r : Ray) (c : Circle), v2d_raycast_circle r c = CRes.inf ∨
      ∃ l, v2d_raycast_circle r c = CRes.val l ∧ 0 ≤ l ∧ l ≤ 1) ∧
    (∀ (r : Ray) (b : Rect), v2d_raycast_rect r b = F.pinf ∨
      ∃ q, v2d_raycast_rect r b = F.fin q ∧ 0 ≤ q ∧ q ≤ 1) ∧
    (∀ (r : Ray) (c : Circle), ¬(0 ≤ circle_h r c ∧ circle_h r c ≤ 1) →
      v2d_raycast_circle r c = CRes.val 0 ∨ v2d_raycast_circle r c = CRes.inf) ∧
    (∀ (r : Ray) (b : Rect),
      (fle (F.fin 0) (rect_h r b) && fle (rect_h r b) (F.fin 1)) = false →
      v2d_raycast_rect r b = F.fin 0 ∨ v2d_raycast_rect r b = F.pinf) :=
  ⟨raycast_circle_cases, raycast_rect_cases,
   raycast_circle_candidate_rejected, raycast_rect_candidate_rejected⟩

/-- Witness for claim C1: concrete rays whose candidate lambda is out of
range (`circle_h = -4` for the circle, `rect_h = 5` for the rect), where the
functions indeed do not return the candidate verbatim. -/
theorem raycast_lambda_in_unit_interval_or_no_hit_witness :
    (v2d_raycast_circle ⟨⟨0, 0⟩, ⟨1, 0⟩⟩ ⟨⟨0, 3⟩, 5⟩ = CRes.val 0 ∨
      v2d_raycast_circle ⟨⟨0, 0⟩, ⟨1, 0⟩⟩ ⟨⟨0, 3⟩, 5⟩ = CRes.inf) ∧
    (v2d_raycast_rect ⟨⟨-5, 1/2⟩, ⟨1, 0⟩⟩ ⟨⟨0, 0⟩, ⟨1, 1⟩⟩ = F.fin 0 ∨
      v2d_raycast_rect ⟨⟨-5, 1/2⟩, ⟨1, 0⟩⟩ ⟨⟨0, 0⟩, ⟨1, 1⟩⟩ = F.pinf) := by
  constructor
  · apply raycast_lambda_in_unit_interval_or_no_hit.2.2.1
    have hr : circle_rmag ⟨⟨0, 0⟩, ⟨1, 0⟩⟩ = 1 := by
      norm_num [circle_rmag, mag2]
    have hp : circle_proj ⟨⟨0, 0⟩, ⟨1, 0⟩⟩ ⟨⟨0, 3⟩, 5⟩ = 0 := by
      norm_num [circle_proj, dot, vsub, hr]
    have hpc : circle_proj_clamped ⟨⟨0, 0⟩, ⟨1, 0⟩⟩ ⟨⟨0, 3⟩, 5⟩ = 0 := by
      norm_num [circle_proj_clamped, hp, hr]
    have hd : circle_dist2 ⟨⟨0, 0⟩, ⟨1, 0⟩⟩ ⟨⟨0, 3⟩, 5⟩ = 9 := by
      norm_num [circle_dist2, vsub, hpc, hr]
    have h16 : Real.sqrt (16 : ℝ) = 4 := by
      rw [show (16 : ℝ) = 4 ^ 2 by norm_num]
      exact Real.sqrt_sq (by norm_num)
    have hh : circle_h ⟨⟨0, 0⟩, ⟨1, 0⟩⟩ ⟨⟨0, 3⟩, 5⟩ = -4 := by
      norm_num [circle_h, hd, hpc, hr, h16]
    rw [hh]
    norm_num
  · apply raycast_lambda_in_unit_interval_or_no_hit.2.2.2
    norm_num [rect_h, rect_hmin_xy, rect_hmax_xy, rect_hmin_x, rect_hmax_x,
      rect_hx1, rect_hx2, rect_hy1, rect_hy2, rect_fix, fix_axis,
      finv, fmul, fmin, fmax, flt, fle]

/-- Claim C4: the ray from `(-5, 1/2)` with direction `(10, 0)` against the
unit rect at the origin returns exactly `1/2`; the ray from `(-5, 5)` with
the same direction against the same rect returns positive infinity. -/
theorem raycast_rect_concrete_examples :
    v2d_raycast_rect ⟨⟨-5, 1/2⟩, ⟨10, 0⟩⟩ ⟨⟨0, 0⟩, ⟨1, 1⟩⟩ = F.fin (1/2) ∧
    v2d_raycast_rect ⟨⟨-5, 5⟩, ⟨10, 0⟩⟩ ⟨⟨0, 0⟩, ⟨1, 1⟩⟩ = F.pinf := by
  constructor
  · norm_num [v2d_raycast_rect, v2d_collide_point_rect, rect_fix, fix_axis, vadd, vzero,
      rect_h, rect_hmin_xy, rect_hmax_xy, rect_hmin_x, rect_hmax_x,
      rect_hx1, rect_hx2, rect_hy1, rect_hy2, finv, fmul, fmin, fmax, flt, fle]
  · norm_num [v2d_raycast_rect, v2d_collide_point_rect, rect_fix, fix_axis, vadd, vzero,
      rect_h, rect_hmin_xy, rect_hmax_xy, rect_hmin_x, rect_hmax_x,
      rect_hx1, rect_hx2, rect_hy1, rect_hy2, finv, fmul, fmin, fmax, flt, fle]


lemma rect_fix_dim_nonneg (b : Rect) :
    0 ≤ (rect_fix b).dim.x ∧ 0 ≤ (rect_fix b).dim.y := by
  unfold rect_fix fix_axis
  constructor <;> dsimp only <;> split_ifs <;> dsimp only <;> linarith

/-- Claim C2: `v2d_collide_rect_rect` normalizes both rects and returns
`false` exactly when one normalized rect's max corner is strictly less than
the other's min corner on the x or the y axis, in either ordering; in
particular two unit rects exactly touching along a shared edge report
collision `true`. -/
theorem collide_rect_rect_separating_axis_iff :
    (∀ a b : Rect, v2d_collide_rect_rect a b = false ↔
      ((rect_fix a).pos.x + (rect_fix a).dim.x < (rect_fix b).pos.x ∨
       (rect_fix b).pos.x + (rect_fix b).dim.x < (rect_fix a).pos.x ∨
       (rect_fix a).pos.y + (rect_fix a).dim.y < (rect_fix b).pos.y ∨
       (rect_fix b).pos.y + (rect_fix b).dim.y < (rect_fix a).pos.y)) ∧
    v2d_collide_rect_rect ⟨⟨0, 0⟩, ⟨1, 1⟩⟩ ⟨⟨1, 0⟩, ⟨1, 1⟩⟩ = true := by
  constructor
  · intro a b
    unfold v2d_collide_rect_rect
    split_ifs with h1 h2 h3 h4 <;> simp_all [not_lt]
  · norm_num [v2d_collide_rect_rect, rect_fix, fix_axis]

/-- Claim C3: `v2d_collide_point_circle` is true iff the squared distance to
the center is strictly less than the radius squared (a point exactly at
distance `radius` is not contained), while `v2d_collide_point_rect`, after
normalization, is true iff the point lies within the rect's bounds inclusive
on both ends of both axes (a point exactly on an edge is contained). -/
theorem point_containment_boundary_conventions :
    (∀ (p : Vec) (c : Circle), v2d_collide_point_circle p c = true ↔
      mag2 (vsub c.pos p) < c.rad * c.rad) ∧
    (∀ (p : Vec) (b : Rect), v2d_collide_point_rect p b = true ↔
      ((rect_fix b).pos.x ≤ p.x ∧ p.x ≤ (rect_fix b).pos.x + (rect_fix b).dim.x ∧
       (rect_fix b).pos.y ≤ p.y ∧ p.y ≤ (rect_fix b).pos.y + (rect_fix b).dim.y)) ∧
    (∀ (p : Vec) (c : Circle), mag2 (vsub c.pos p) = c.rad * c.rad →
      v2d_collide_point_circle p c = false) ∧
    (∀ (p : Vec) (b : Rect),
      (p.x = (rect_fix b).pos.x ∨ p.x = (rect_fix b).pos.x + (rect_fix b).dim.x) →
      (rect_fix b).pos.y ≤ p.y → p.y ≤ (rect_fix b).pos.y + (rect_fix b).dim.y →
      v2d_collide_point_rect p b = true) := by
  have hcirc : ∀ (p : Vec) (c : Circle), v2d_collide_point_circle p c = true ↔
      mag2 (vsub c.pos p) < c.rad * c.rad := by
    intro p c
    simp [v2d_collide_point_circle]
  have hrect : ∀ (p : Vec) (b : Rect), v2d_collide_point_rect p b = true ↔
      ((rect_fix b).pos.x ≤ p.x ∧ p.x ≤ (rect_fix b).pos.x + (rect_fix b).dim.x ∧
       (rect_fix b).pos.y ≤ p.y ∧ p.y ≤ (rect_fix b).pos.y + (rect_fix b).dim.y) := by
    intro p b
    unfold v2d_collide_point_rect
    split_ifs with h1 h2 h3 h4
    · simp
      intros
      linarith
    · simp
      intros
      linarith
    · simp
      intros
      linarith
    · simp
      intros
      linarith
    · push_neg at h1 h2 h3 h4
      simp
      exact ⟨h1, h2, h3, h4⟩
  refine ⟨hcirc, hrect, ?_, ?_⟩
  · intro p c h
    simp [v2d_collide_point_circle, h]
  · intro p b hx hy1 hy2
    rcases rect_fix_dim_nonneg b with ⟨hdx, _⟩
    rw [hrect p b]
    rcases hx with hx | hx <;>
      exact ⟨by linarith, by linarith, hy1, hy2⟩

/-- Claim C5: for every ray whose origin is not inside the target shape and
whose direction is non-zero, if the ray's endpoint `origin + direction` lies
inside the target (exclusive test for a circle, inclusive for a rect), the
raycast returns `0`. -/
theorem raycast_endpoint_inside_returns_zero :
    (∀ (r : Ray) (c : Circle), v2d_collide_point_circle r.pos c = false →
      r.dir ≠ vzero → v2d_collide_point_circle (vadd r.pos r.dir) c = true →
      v2d_raycast_circle r c = CRes.val 0) ∧
    (∀ (r : Ray) (b : Rect), v2d_collide_point_rect r.pos b = false →
      r.dir ≠ vzero → v2d_collide_point_rect (vadd r.pos r.dir) b = true →
      v2d_raycast_rect r b = F.fin 0) := by
  constructor
  · intro r c h1 h2 h3
    unfold v2d_raycast_circle
    rw [h1, h3]
    simp [h2]
  · intro r b h1 h2 h3
    unfold v2d_raycast_rect
    rw [h1, h3]
    simp [h2]

/-- Claim C6: for every zero-direction ray, `v2d_raycast_circle` returns
positive infinity when the origin is outside the circle but `0` when the
origin is inside, because the origin-inside shortcut precedes the
zero-direction guard. -/
theorem raycast_circle_zero_direction :
    ∀ (r : Ray) (c : Circle), r.dir = vzero →
      (v2d_collide_point_circle r.pos c = true → v2d_raycast_circle r c = CRes.val 0) ∧
      (v2d_collide_point_circle r.pos c = false → v2d_raycast_circle r c = CRes.inf) := by
  intro r c hz
  constructor
  · intro h
    unfold v2d_raycast_circle
    rw [h]
    simp
  · intro h
    unfold v2d_raycast_circle
    rw [h]
    simp [hz]



/-- Witness for claim C3: the point `(1,0)` exactly on the unit circle's
circumference is not contained; the point `(1, 1/2)` exactly on the unit
rect's right edge is contained. -/
theorem point_containment_boundary_conventions_witness :
    v2d_collide_point_circle ⟨1, 0⟩ ⟨⟨0, 0⟩, 1⟩ = false ∧
    v2d_collide_point_rect ⟨1, 1/2⟩ ⟨⟨0, 0⟩, ⟨1, 1⟩⟩ = true := by
  constructor
  · exact point_containment_boundary_conventions.2.2.1 ⟨1, 0⟩ ⟨⟨0, 0⟩, 1⟩
      (by norm_num [mag2, vsub])
  · exact point_containment_boundary_conventions.2.2.2 ⟨1, 1/2⟩ ⟨⟨0, 0⟩, ⟨1, 1⟩⟩
      (Or.inr (by norm_num [rect_fix, fix_axis]))
      (by norm_num [rect_fix, fix_axis]) (by norm_num [rect_fix, fix_axis])

/-- Witness for claim C5: rays from outside whose endpoints land inside the
unit circle and the unit rect (with true first contact strictly after
lambda 0) return `0`. -/
theorem raycast_endpoint_inside_returns_zero_witness :
    v2d_raycast_circle ⟨⟨-5, 0⟩, ⟨11/2, 0⟩⟩ ⟨⟨0, 0⟩, 1⟩ = CRes.val 0 ∧
    v2d_raycast_rect ⟨⟨-5, 1/2⟩, ⟨11/2, 0⟩⟩ ⟨⟨0, 0⟩, ⟨1, 1⟩⟩ = F.fin 0 := by
  constructor
  · exact raycast_endpoint_inside_returns_zero.1 ⟨⟨-5, 0⟩, ⟨11/2, 0⟩⟩ ⟨⟨0, 0⟩, 1⟩
      (by norm_num [v2d_collide_point_circle, mag2, vsub])
      (by norm_num [vzero, Vec.mk.injEq])
      (by norm_num [v2d_collide_point_circle, mag2, vsub, vadd])
  · exact raycast_endpoint_inside_returns_zero.2 ⟨⟨-5, 1/2⟩, ⟨11/2, 0⟩⟩ ⟨⟨0, 0⟩, ⟨1, 1⟩⟩
      (by norm_num [v2d_collide_point_rect, rect_fix, fix_axis])
      (by norm_num [vzero, Vec.mk.injEq])
      (by norm_num [v2d_collide_point_rect, rect_fix, fix_axis, vadd])

/-- Witness for claim C6: a zero-direction ray starting inside the unit
circle returns `0`; one starting outside returns positive infinity. -/
theorem raycast_circle_zero_direction_witness :
    v2d_raycast_circle ⟨⟨0, 0⟩, ⟨0, 0⟩⟩ ⟨⟨0, 0⟩, 1⟩ = CRes.val 0 ∧
    v2d_raycast_circle ⟨⟨5, 0⟩, ⟨0, 0⟩⟩ ⟨⟨0, 0⟩, 1⟩ = CRes.inf := by
  constructor
  · exact (raycast_circle_zero_direction ⟨⟨0, 0⟩, ⟨0, 0⟩⟩ ⟨⟨0, 0⟩, 1⟩ rfl).1
      (by norm_num [v2d_collide_point_circle, mag2, vsub])
  · exact (raycast_circle_zero_direction ⟨⟨5, 0⟩, ⟨0, 0⟩⟩ ⟨⟨0, 0⟩, 1⟩ rfl).2
      (by norm_num [v2d_collide_point_circle, mag2, vsub])

lemma fix_axis_idem (p d : ℚ) :
    fix_axis (fix_axis p d).1 (fix_axis p d).2 = fix_axis p d := by
  unfold fix_axis
  rcases lt_or_ge d 0 with h | h
  · rw [if_pos h]
    dsimp only
    rw [if_neg (by linarith : ¬-d < 0)]
  · rw [if_neg (not_lt.mpr h)]
    dsimp only
    rw [if_neg (not_lt.mpr h)]

/-- Claim C7: rect normalization is idempotent and sign-correcting: applying
`_rect_fix` twice equals applying it once; on each axis with negative extent
the result has `extent = -extent_old` and `origin = origin_old + extent_old`
with the other axis untouched, so origin `(5,5)` extent `(-2,3)` normalizes
to origin `(3,5)` extent `(2,3)`. -/
theorem rect_fix_idempotent_sign_correcting :
    (∀ r : Rect, rect_fix (rect_fix r) = rect_fix r) ∧
    (∀ r : Rect,
      (r.dim.x < 0 → (rect_fix r).pos.x = r.pos.x + r.dim.x ∧
        (rect_fix r).dim.x = -r.dim.x) ∧
      (¬r.dim.x < 0 → (rect_fix r).pos.x = r.pos.x ∧ (rect_fix r).dim.x = r.dim.x) ∧
      (r.dim.y < 0 → (rect_fix r).pos.y = r.pos.y + r.dim.y ∧
        (rect_fix r).dim.y = -r.dim.y) ∧
      (¬r.dim.y < 0 → (rect_fix r).pos.y = r.pos.y ∧ (rect_fix r).dim.y = r.dim.y)) ∧
    rect_fix ⟨⟨5, 5⟩, ⟨-2, 3⟩⟩ = ⟨⟨3, 5⟩, ⟨2, 3⟩⟩ := by
  refine ⟨?_, ?_, ?_⟩
  · intro r
    unfold rect_fix
    dsimp only
    rw [fix_axis_idem, fix_axis_idem]
  · intro r
    refine ⟨fun h => ?_, fun h => ?_, fun h => ?_, fun h => ?_⟩ <;>
      simp [rect_fix, fix_axis, h]
  · norm_num [rect_fix, fix_axis, Rect.mk.injEq, Vec.mk.injEq]

/-- Witness for claim C7 at the rect with origin `(5,5)` and extent
`(-2,3)`: idempotence and the per-axis formulas hold there. -/
theorem rect_fix_idempotent_sign_correcting_witness :
    rect_fix (rect_fix ⟨⟨5, 5⟩, ⟨-2, 3⟩⟩) = rect_fix ⟨⟨5, 5⟩, ⟨-2, 3⟩⟩ ∧
    ((rect_fix ⟨⟨5, 5⟩, ⟨-2, 3⟩⟩).pos.x = 5 + (-2) ∧
      (rect_fix ⟨⟨5, 5⟩, ⟨-2, 3⟩⟩).dim.x = -(-2)) ∧
    ((rect_fix ⟨⟨5, 5⟩, ⟨-2, 3⟩⟩).pos.y = 5 ∧
      (rect_fix ⟨⟨5, 5⟩, ⟨-2, 3⟩⟩).dim.y = 3) := by
  refine ⟨rect_fix_idempotent_sign_correcting.1 ⟨⟨5, 5⟩, ⟨-2, 3⟩⟩, ?_, ?_⟩
  · exact (rect_fix_idempotent_sign_correcting.2.1 ⟨⟨5, 5⟩, ⟨-2, 3⟩⟩).1 (by norm_num)
  · exact (rect_fix_idempotent_sign_correcting.2.1 ⟨⟨5, 5⟩, ⟨-2, 3⟩⟩).2.2.2 (by norm_num)

lemma clamp_comm (a lo hi : ℚ) : clamp a lo hi = clamp a hi lo := by
  unfold clamp
  rcases lt_trichotomy lo hi with h | h | h
  · rw [if_pos h, if_neg (not_lt.mpr h.le)]
  · rw [h]
  · rw [if_neg (not_lt.mpr h.le), if_pos h]

lemma clamp_fix_axis (a p d : ℚ) :
    clamp a (fix_axis p d).1 ((fix_axis p d).1 + (fix_axis p d).2) =
      clamp a p (p + d) := by
  unfold fix_axis
  rcases lt_or_ge d 0 with h | h
  · rw [if_pos h]
    dsimp only
    rw [show p + d + -d = p by ring]
    exact clamp_comm a (p + d) p
  · rw [if_neg (not_lt.mpr h)]

lemma clampv_rect_fix (p : Vec) (b : Rect) :
    clampv p (rect_fix b).pos (vadd (rect_fix b).pos (rect_fix b).dim) =
      clampv p b.pos (vadd b.pos b.dim) := by
  unfold clampv vadd rect_fix
  dsimp only
  rw [Vec.mk.injEq]
  exact ⟨clamp_fix_axis p.x b.pos.x b.dim.x, clamp_fix_axis p.y b.pos.y b.dim.y⟩

/-- Claim C9: for every circle and every rect, including rects with negative
extent components, `v2d_collide_circle_rect` gives the same result on the raw
rect and on the normalized rect, because the scalar clamp is robust to its
two bounds arriving in either order. -/
theorem collide_circle_rect_fix_invariant :
    ∀ (a : Circle) (b : Rect),
      v2d_collide_circle_rect a b = v2d_collide_circle_rect a (rect_fix b) := by
  intro a b
  unfold v2d_collide_circle_rect
  rw [clampv_rect_fix]

/-- Claim C10: `v2d_collide_point_circle` and `v2d_collide_circle_rect` give
the same result for radius `-r` as for radius `r`: the radius enters only as
its square, so a negative-radius circle behaves as one of radius `|r|`. -/
theorem negative_radius_behaves_as_absolute :
    (∀ (p pos : Vec) (rad : ℚ),
      v2d_collide_point_circle p ⟨pos, -rad⟩ = v2d_collide_point_circle p ⟨pos, rad⟩) ∧
    (∀ (pos : Vec) (rad : ℚ) (b : Rect),
      v2d_collide_circle_rect ⟨pos, -rad⟩ b = v2d_collide_circle_rect ⟨pos, rad⟩ b) := by
  constructor <;> intros <;>
    simp [v2d_collide_point_circle, v2d_collide_circle_rect, neg_mul_neg]

end V2D

namespace V2D

lemma fmul_fin_pinf (a : ℚ) :
    fmul (F.fin a) F.pinf = if 0 < a then F.pinf else if a < 0 then F.ninf else F.nan := rfl

lemma fmul_sub_pinf_cases (A p : ℚ) (h : A ≠ p) :
    fmul (F.fin (A - p)) F.pinf = F.pinf ∨ fmul (F.fin (A - p)) F.pinf = F.ninf := by
  rcases lt_or_gt_of_ne (sub_ne_zero_of_ne h) with hl | hg
  · right
    rw [fmul_fin_pinf, if_neg (by linarith), if_pos hl]
  · left
    rw [fmul_fin_pinf, if_pos hg]

lemma fmul_zero_pinf : fmul (F.fin 0) F.pinf = F.nan := by
  rw [fmul_fin_pinf]
  norm_num

lemma fmin_nan_left (x : F) : fmin F.nan x = x := by cases x <;> rfl

lemma fmin_nan_right (x : F) : fmin x F.nan = x := by cases x <;> rfl

lemma fmax_nan_left (x : F) : fmax F.nan x = x := by cases x <;> rfl

lemma fmax_nan_right (x : F) : fmax x F.nan = x := by cases x <;> rfl

/-- Counterexample to claim C8 as stated: the ray from `(0, 2)` with direction
`(0, -10)` (exactly one zero component) against the unit rect makes the
x-axis slab bound `hx1` equal to `0 * inf = NaN`, not a signed infinity; the
function still returns positive infinity. -/
theorem raycast_rect_single_zero_axis_counterexample :
    (⟨⟨0, 2⟩, ⟨0, -10⟩⟩ : Ray).dir.x = 0 ∧
    (⟨⟨0, 2⟩, ⟨0, -10⟩⟩ : Ray).dir.y ≠ 0 ∧
    rect_hx1 ⟨⟨0, 2⟩, ⟨0, -10⟩⟩ ⟨⟨0, 0⟩, ⟨1, 1⟩⟩ = F.nan ∧
    ¬(rect_hx1 ⟨⟨0, 2⟩, ⟨0, -10⟩⟩ ⟨⟨0, 0⟩, ⟨1, 1⟩⟩ = F.pinf ∨
      rect_hx1 ⟨⟨0, 2⟩, ⟨0, -10⟩⟩ ⟨⟨0, 0⟩, ⟨1, 1⟩⟩ = F.ninf) ∧
    v2d_raycast_rect ⟨⟨0, 2⟩, ⟨0, -10⟩⟩ ⟨⟨0, 0⟩, ⟨1, 1⟩⟩ = F.pinf := by
  refine ⟨rfl, by norm_num, ?_, ?_, ?_⟩
  · norm_num [rect_hx1, rect_fix, fix_axis, finv, fmul]
  · norm_num [rect_hx1, rect_fix, fix_axis, finv, fmul]
    exact ⟨by decide, by decide⟩
  · norm_num [v2d_raycast_rect, v2d_collide_point_rect, rect_fix, fix_axis, vadd, vzero,
      rect_h, rect_hmin_xy, rect_hmax_xy, rect_hmin_x, rect_hmax_x,
      rect_hx1, rect_hx2, rect_hy1, rect_hy2, finv, fmul, fmin, fmax, flt, fle]

/-- Claim C8, amended: for a ray whose direction has exactly one zero
component, the division by that component yields a signed infinity in each of
the zero axis's slab bounds whose rect boundary coordinate differs from the
ray origin's coordinate on that axis, and NaN when they coincide; `fmin` and
`fmax` ignore NaN operands, and `v2d_raycast_rect` still returns a
well-defined lambda in `[0, 1]` or positive infinity, never NaN. -/
theorem raycast_rect_single_zero_axis_amended :
    (∀ (r : Ray) (b : Rect), r.dir.x = 0 →
      ((rect_fix b).pos.x ≠ r.pos.x →
        rect_hx1 r b = F.pinf ∨ rect_hx1 r b = F.ninf) ∧
      ((rect_fix b).pos.x = r.pos.x → rect_hx1 r b = F.nan) ∧
      ((rect_fix b).pos.x + (rect_fix b).dim.x ≠ r.pos.x →
        rect_hx2 r b = F.pinf ∨ rect_hx2 r b = F.ninf) ∧
      ((rect_fix b).pos.x + (rect_fix b).dim.x = r.pos.x → rect_hx2 r b = F.nan)) ∧
    (∀ (r : Ray) (b : Rect), r.dir.y = 0 →
      ((rect_fix b).pos.y ≠ r.pos.y →
        rect_hy1 r b = F.pinf ∨ rect_hy1 r b = F.ninf) ∧
      ((rect_fix b).pos.y = r.pos.y → rect_hy1 r b = F.nan) ∧
      ((rect_fix b).pos.y + (rect_fix b).dim.y ≠ r.pos.y →
        rect_hy2 r b = F.pinf ∨ rect_hy2 r b = F.ninf) ∧
      ((rect_fix b).pos.y + (rect_fix b).dim.y = r.pos.y → rect_hy2 r b = F.nan)) ∧
    (∀ x : F, fmin F.nan x = x ∧ fmin x F.nan = x ∧
      fmax F.nan x = x ∧ fmax x F.nan = x) ∧
    (∀ (r : Ray) (b : Rect),
      (r.dir.x = 0 ∧ r.dir.y ≠ 0) ∨ (r.dir.x ≠ 0 ∧ r.dir.y = 0) →
      v2d_raycast_rect r b = F.pinf ∨
        ∃ q, v2d_raycast_rect r b = F.fin q ∧ 0 ≤ q ∧ q ≤ 1) := by
  refine ⟨?_, ?_, ?_, ?_⟩
  · intro r b hz
    have hv : finv r.dir.x = F.pinf := by rw [finv, if_pos hz]
    refine ⟨fun h => ?_, fun h => ?_, fun h => ?_, fun h => ?_⟩
    · unfold rect_hx1
      rw [hv]
      exact fmul_sub_pinf_cases _ _ h
    · unfold rect_hx1
      rw [hv, sub_eq_zero_of_eq h]
      exact fmul_zero_pinf
    · unfold rect_hx2
      rw [hv]
      exact fmul_sub_pinf_cases _ _ h
    · unfold rect_hx2
      rw [hv, sub_eq_zero_of_eq h]
      exact fmul_zero_pinf
  · intro r b hz
    have hv : finv r.dir.y = F.pinf := by rw [finv, if_pos hz]
    refine ⟨fun h => ?_, fun h => ?_, fun h => ?_, fun h => ?_⟩
    · unfold rect_hy1
      rw [hv]
      exact fmul_sub_pinf_cases _ _ h
    · unfold rect_hy1
      rw [hv, sub_eq_zero_of_eq h]
      exact fmul_zero_pinf
    · unfold rect_hy2
      rw [hv]
      exact fmul_sub_pinf_cases _ _ h
    · unfold rect_hy2
      rw [hv, sub_eq_zero_of_eq h]
      exact fmul_zero_pinf
  · intro x
    exact ⟨fmin_nan_left x, fmin_nan_right x, fmax_nan_left x, fmax_nan_right x⟩
  · intro r b _
    exact raycast_rect_cases r b

/-- Witness for amended claim C8: a ray with zero x-direction whose slab
bound is a signed infinity, and a ray with zero y-direction whose raycast
result is well-defined. -/
theorem raycast_rect_single_zero_axis_witness :
    (rect_hx1 ⟨⟨5, 1/2⟩, ⟨0, 1⟩⟩ ⟨⟨0, 0⟩, ⟨1, 1⟩⟩ = F.pinf ∨
      rect_hx1 ⟨⟨5, 1/2⟩, ⟨0, 1⟩⟩ ⟨⟨0, 0⟩, ⟨1, 1⟩⟩ = F.ninf) ∧
    (v2d_raycast_rect ⟨⟨-5, 1/2⟩, ⟨10, 0⟩⟩ ⟨⟨0, 0⟩, ⟨1, 1⟩⟩ = F.pinf ∨
      ∃ q, v2d_raycast_rect ⟨⟨-5, 1/2⟩, ⟨10, 0⟩⟩ ⟨⟨0, 0⟩, ⟨1, 1⟩⟩ = F.fin q ∧
        0 ≤ q ∧ q ≤ 1) := by
  constructor
  · exact (raycast_rect_single_zero_axis_amended.1 ⟨⟨5, 1/2⟩, ⟨0, 1⟩⟩ ⟨⟨0, 0⟩, ⟨1, 1⟩⟩
      rfl).1 (by norm_num [rect_fix, fix_axis])
  · exact raycast_rect_single_zero_axis_amended.2.2.2 ⟨⟨-5, 1/2⟩, ⟨10, 0⟩⟩
      ⟨⟨0, 0⟩, ⟨1, 1⟩⟩ (Or.inr ⟨by norm_num, rfl⟩)

end V2D
